import Mathlib

/-!
Verification of the Dockerfile tokenizer/parser core of the
`docker-optimizer` repository (packages `internal/lexer` and
`internal/parser`), via a shallow embedding of its Go source in Lean 4.

Conventions of the embedding:
* Go strings are Lean `String`s (in this toolchain a `String` wraps a
  `List Char`, so all definitions compute by kernel reduction).
* Go slices are Lean `List`s; Go `int` is Lean `Int`.
* A Go `map[string]string` is modelled as an association list in key
  insertion order (`mapInsert` overwrites in place, like a map store);
  Go's randomized map iteration order is modelled explicitly where it
  matters, by quantifying over permutations of the entry list.
* Pointers are modelled as plain values; `nil`-pointer cases that the
  surrounding code cannot produce are not represented.
* Fallible Go functions returning `(T, error)` become `Except`/`Option`.
-/

/-! ## Go standard-library string helpers (models of package `strings`) -/

/-- Model of Go `unicode.IsSpace` restricted to the ASCII whitespace that
Dockerfile sources contain. -/
def isGoSpace (c : Char) : Bool :=
  " \t\n\u000b\u000c\r".data.contains c

/-- Model of Go `strings.TrimSpace` (leading and trailing whitespace). -/
def goTrimSpace (s : String) : String :=
  ⟨(s.data.dropWhile isGoSpace).reverse.dropWhile isGoSpace |>.reverse⟩

/-- Characterwise prefix test, model of Go `strings.HasPrefix`. -/
def goStartsWithL : List Char → List Char → Bool
  | _, [] => true
  | [], _ :: _ => false
  | c :: cs, p :: ps => c == p && goStartsWithL cs ps

/-- Model of Go `strings.HasPrefix`. -/
def goStartsWith (s pre : String) : Bool :=
  goStartsWithL s.data pre.data

/-- Model of Go `strings.TrimPrefix`. -/
def goTrimLeading (s pre : String) : String :=
  if goStartsWith s pre then ⟨s.data.drop pre.data.length⟩ else s

/-- Model of Go `strings.TrimSuffix`. -/
def goTrimSuffix (s suf : String) : String :=
  if goStartsWithL s.data.reverse suf.data.reverse then
    ⟨s.data.take (s.data.length - suf.data.length)⟩
  else s

/-- Model of Go `strings.Contains` for a one-character separator. -/
def goContainsChar (s : String) (c : Char) : Bool :=
  s.data.any (· == c)

/-- Split a character list at every occurrence of `sep`. -/
def goSplitL (sep : Char) : List Char → List Char → List String
  | [], acc => [⟨acc.reverse⟩]
  | c :: cs, acc =>
    if c == sep then ⟨acc.reverse⟩ :: goSplitL sep cs []
    else goSplitL sep cs (c :: acc)

/-- Model of Go `strings.Split` with a one-character separator. -/
def goSplit (s : String) (sep : Char) : List String :=
  goSplitL sep s.data []

/-- Model of Go `strings.SplitN(s, sep, 2)` with a one-character separator:
split only at the first occurrence of `sep`. -/
def goSplitN2 (s : String) (sep : Char) : List String :=
  match goSplit s sep with
  | [] => [s]
  | [x] => [x]
  | x :: rest => [x, String.intercalate (String.singleton sep) rest]

/-- Model of Go `strings.Join` with separator `" "`. -/
def goJoinSpace (xs : List String) : String :=
  String.intercalate " " xs

/-- Model of Go `strconv.Atoi` (optional sign, then one or more digits;
the 64-bit overflow bound is irrelevant at the port-sized numbers the
parser sees and is not modelled). -/
def goAtoi (s : String) : Option Int :=
  let digits (cs : List Char) : Option Int :=
    if cs.isEmpty then none
    else if cs.all (·.isDigit) then
      some (cs.foldl (fun a c => a * 10 + (Int.ofNat (c.toNat - '0'.toNat))) 0)
    else none
  match s.data with
  | '+' :: cs => digits cs
  | '-' :: cs => (digits cs).map (fun n => -n)
  | cs => digits cs

/-- Association-list store with in-place overwrite: the effect of
`m[k] = v` on a Go `map[string]string`, keeping entries in first-insertion
order (the canonical enumeration of the map's entry set). -/
def mapInsert (m : List (String × String)) (k v : String) : List (String × String) :=
  if m.any (fun p => p.1 == k) then
    m.map (fun p => if p.1 == k then (k, v) else p)
  else m ++ [(k, v)]

/-! ## Token model (`internal/lexer`, file defining `Token` and `TokenType`)

`TokenType` is a Go `int` with `iota` constants; `Token.IsInstruction`
compares against the range of instruction constants, so the numeric
values matter and are reproduced exactly. -/

/-- Go `type TokenType int`. -/
abbrev TokenType := Int

def TOKEN_ILLEGAL : TokenType := 0
def TOKEN_EOF : TokenType := 1
def TOKEN_NEWLINE : TokenType := 2
def TOKEN_WHITESPACE : TokenType := 3
def TOKEN_INSTRUCTION_FROM : TokenType := 4
def TOKEN_INSTRUCTION_RUN : TokenType := 5
def TOKEN_INSTRUCTION_CMD : TokenType := 6
def TOKEN_INSTRUCTION_LABEL : TokenType := 7
def TOKEN_INSTRUCTION_MAINTAINER : TokenType := 8
def TOKEN_INSTRUCTION_EXPOSE : TokenType := 9
def TOKEN_INSTRUCTION_ENV : TokenType := 10
def TOKEN_INSTRUCTION_ADD : TokenType := 11
def TOKEN_INSTRUCTION_COPY : TokenType := 12
def TOKEN_INSTRUCTION_ENTRYPOINT : TokenType := 13
def TOKEN_INSTRUCTION_VOLUME : TokenType := 14
def TOKEN_INSTRUCTION_USER : TokenType := 15
def TOKEN_INSTRUCTION_WORKDIR : TokenType := 16
def TOKEN_INSTRUCTION_ARG : TokenType := 17
def TOKEN_INSTRUCTION_ONBUILD : TokenType := 18
def TOKEN_INSTRUCTION_STOPSIGNAL : TokenType := 19
def TOKEN_INSTRUCTION_HEALTHCHECK : TokenType := 20
def TOKEN_INSTRUCTION_SHELL : TokenType := 21
def TOKEN_COMMENT : TokenType := 22
def TOKEN_CONTINUATION : TokenType := 23
def TOKEN_ESCAPEDCHAR : TokenType := 24
def TOKEN_HEREDOC_START : TokenType := 25
def TOKEN_HEREDOC_END : TokenType := 26
def TOKEN_STRING : TokenType := 27
def TOKEN_QUOTED_STRING : TokenType := 28
def TOKEN_NUMBER : TokenType := 29
def TOKEN_EQUALS : TokenType := 30
def TOKEN_COLON : TokenType := 31
def TOKEN_COMMA : TokenType := 32
def TOKEN_LBRACKET : TokenType := 33
def TOKEN_RBRACKET : TokenType := 34
def TOKEN_VARIABLE : TokenType := 35
def TOKEN_AS : TokenType := 36
def TOKEN_STAGE_NAME : TokenType := 37

/-- Modelled from the spec: `TOKEN_HEREDOC_CONTENT` is referenced by
`scanner.go` and `instructions.go` but absent from the repository's
`TokenType` constant list; it is given a value outside the instruction
range, which is all the referencing code depends on. -/
def TOKEN_HEREDOC_CONTENT : TokenType := 38

/-- Go `lexer.Token`. -/
structure Token where
  type : TokenType
  value : String
  line : Int
  column : Int
  length : Int
  raw : String
deriving DecidableEq, Repr

/-- The zero-value `&Token{Type: TOKEN_EOF}` the lexer substitutes at
end of input. -/
def eofToken : Token :=
  { type := TOKEN_EOF, value := "", line := 0, column := 0, length := 0, raw := "" }

/-- Go `Token.IsInstruction`: membership of the type in the instruction
constant range. -/
def Token.IsInstruction (t : Token) : Bool :=
  TOKEN_INSTRUCTION_FROM ≤ t.type && t.type ≤ TOKEN_INSTRUCTION_SHELL

/-- Go `lexer.InstructionTokens` (one logical line, grouped). -/
structure InstructionTokens where
  instruction : Token
  arguments : List Token
  comments : List Token
  raw : List Token
  jsonForm : Bool
deriving DecidableEq, Repr

/-- Go `InstructionTokens.GetInstructionValue`. -/
def InstructionTokens.GetInstructionValue (it : InstructionTokens) : String :=
  it.instruction.value

/-- Go `InstructionTokens.GetArgumentsAsString`: non-whitespace argument
token values joined with single spaces. -/
def InstructionTokens.GetArgumentsAsString (it : InstructionTokens) : String :=
  goJoinSpace ((it.arguments.filter (fun a => a.type ≠ TOKEN_WHITESPACE)).map (·.value))

/-! ## Error model (`internal/parser/errors.go`) -/

/-- Go `parser.ErrorCode` (`iota + 1` constants; only identity matters). -/
inductive ErrorCode where
  | codeSyntaxError
  | codeValidationError
  | codeReferenceError
  | codeInstructionError
  | codeStageError
  | codeVariableError
  | codeIOErr
  | codeInternalError
deriving DecidableEq, Repr

/-- Go `parser.Position` (the embedded code only ever sets line/column). -/
structure Position where
  line : Int := 0
  column : Int := 0
  offset : Int := 0
  filePath : String := ""
deriving DecidableEq, Repr

/-- Go `parser.Range`. -/
structure Range where
  start : Position := {}
  «end» : Position := {}
deriving DecidableEq, Repr

/-- Go `parser.DockerfileError` (the `Cause error` field, never set on the
paths embedded here, is omitted). -/
structure DockerfileError where
  code : ErrorCode
  stage : String := ""
  position : Position := {}
  message : String := ""
  details : String := ""
  snippet : String := ""
  hints : List String := []
deriving DecidableEq, Repr

/-! ## Parsed-instruction model (`internal/parser`, type declarations) -/

/-- Go `parser.Heredoc`. -/
structure Heredoc where
  identifier : String
  content : String
  range : Range
  delimiter : String
  stripLeadingTabs : Bool := false
deriving DecidableEq, Repr

/-- Go `parser.Instruction`. The `Stage` back-pointer is a non-owning
reference the embedded code never reads and is not modelled. -/
structure Instruction where
  command : String
  args : List String := []
  flags : List (String × String) := []
  range : Range := {}
  raw : String := ""
  comment : String := ""
  jsonForm : Bool := false
  heredoc : Option Heredoc := none
  dependencies : List String := []
deriving DecidableEq, Repr

/-- Errors out of `ParseInstruction`: either a structured
`DockerfileError` or the `fmt.Errorf("unknown instruction: %s")` /
`ErrInvalidInstruction` plain errors. -/
inductive ParseError where
  | dockerfile (e : DockerfileError)
  | unknownInstruction (cmd : String)
  | invalidInstruction
deriving DecidableEq, Repr

/-! ## Key-value pair scanner (`instructions.go`, `parseKeyValuePairs`)

A quote-aware character machine; its Go result is a `map[string]string`,
modelled here as the entry list in insertion order (see `mapInsert`). -/

/-- Mutable state of the `parseKeyValuePairs` loop. -/
structure KVState where
  result : List (String × String) := []
  key : String := ""
  value : String := ""
  inQuote : Bool := false
  quoteChar : Char := ' '
  isKey : Bool := true
  escaped : Bool := false
deriving Repr

/-- One iteration of the `for _, ch := range input` loop of
`parseKeyValuePairs`. -/
def kvStep (st : KVState) (ch : Char) : KVState :=
  if st.escaped then
    if st.isKey then { st with key := st.key.push ch, escaped := false }
    else { st with value := st.value.push ch, escaped := false }
  else if ch == '\\' then
    { st with escaped := true }
  else if ch == '"' || ch == '\'' then
    if st.inQuote && ch == st.quoteChar then { st with inQuote := false }
    else if !st.inQuote then { st with inQuote := true, quoteChar := ch }
    else if st.isKey then { st with key := st.key.push ch }
    else { st with value := st.value.push ch }
  else if ch == '=' then
    if !st.inQuote && st.isKey then { st with isKey := false }
    else if st.isKey then { st with key := st.key.push ch }
    else { st with value := st.value.push ch }
  else if ch == ' ' || ch == '\t' then
    if st.inQuote then
      if st.isKey then { st with key := st.key.push ch }
      else { st with value := st.value.push ch }
    else if !st.isKey && st.value ≠ "" then
      { st with result := mapInsert st.result st.key st.value,
                key := "", value := "", isKey := true }
    else st
  else
    if st.isKey then { st with key := st.key.push ch }
    else { st with value := st.value.push ch }

/-- Go `parseKeyValuePairs`: fold the character machine over the input and
commit the final pending pair when the key is nonempty. -/
def parseKeyValuePairs (input : String) : List (String × String) :=
  let st := input.data.foldl kvStep {}
  if st.key ≠ "" then mapInsert st.result st.key st.value else st.result

/-! ## JSON string-array decoding

Model of `encoding/json`'s `json.Unmarshal(data, &[]string)` as used by
`parseJSONArrayForm`: optional whitespace, `[`, a comma-separated list of
JSON strings, `]`, and nothing but whitespace afterwards. The concrete
error text produced by the Go library is abstracted away (the repository
only propagates it inside a message string). -/

/-- Whitespace skipped by the JSON decoder. -/
def jsonSkipWS (cs : List Char) : List Char :=
  cs.dropWhile (fun c => " \t\n\r".data.contains c)

/-- Value of one hexadecimal digit: its position in the digit alphabet. -/
def jsonHexDigit (c : Char) : Option Nat :=
  "0123456789abcdef".data.indexOf? c.toLower

/-- The single-character JSON escapes, as a lookup table. -/
def jsonEscapeTable : List (Char × Char) :=
  [('"', '"'), ('\\', '\\'), ('/', '/'), ('b', '\u0008'), ('f', '\u000c'),
   ('n', '\n'), ('r', '\r'), ('t', '\t')]

/-- Decode the body of a JSON string after the opening quote, handling
the standard escapes (a `\uXXXX` escape decodes its code unit). -/
def jsonStringBody : List Char → String → Option (String × List Char)
  | [], _ => none
  | '"' :: rest, acc => some (acc, rest)
  | '\\' :: 'u' :: h1 :: h2 :: h3 :: h4 :: rest, acc =>
    (match jsonHexDigit h1, jsonHexDigit h2, jsonHexDigit h3, jsonHexDigit h4 with
     | some a, some b, some c, some d =>
       jsonStringBody rest (acc.push (Char.ofNat (((a * 16 + b) * 16 + c) * 16 + d)))
     | _, _, _, _ => none)
  | '\\' :: e :: rest, acc =>
    (match jsonEscapeTable.lookup e with
     | some c => jsonStringBody rest (acc.push c)
     | none => none)
  | c :: rest, acc => jsonStringBody rest (acc.push c)

/-- Decode the element list of a JSON string array, after the opening
bracket. `fuel` dominates the number of elements. -/
def jsonElems : Nat → List Char → List String → Option (List String × List Char)
  | 0, _, _ => none
  | fuel + 1, cs, acc =>
    match jsonSkipWS cs with
    | '"' :: rest =>
      match jsonStringBody rest "" with
      | none => none
      | some (s, rest') =>
        match jsonSkipWS rest' with
        | ',' :: rest'' => jsonElems fuel rest'' (acc ++ [s])
        | ']' :: rest'' => some (acc ++ [s], rest'')
        | _ => none
    | _ => none

/-- Model of `json.Unmarshal` into `[]string`. -/
def jsonUnmarshalStringArray (s : String) : Option (List String) :=
  match jsonSkipWS s.data with
  | '[' :: rest =>
    match jsonSkipWS rest with
    | ']' :: rest' => if (jsonSkipWS rest').isEmpty then some [] else none
    | _ =>
      match jsonElems (s.data.length + 1) rest [] with
      | none => none
      | some (xs, rest') => if (jsonSkipWS rest').isEmpty then some xs else none
  | _ => none

/-! ## Per-instruction parsers (`internal/parser/instructions.go`)

Each Go routine mutates the pre-built `*Instruction` and returns an
`error`; here each takes and returns the instruction through `Except`. -/

/-- The `AS name` search loop at the top of `parseFromInstruction`. -/
def fromStageNameArg : List Token → Option String
  | a :: rest =>
    if a.type == TOKEN_AS && !rest.isEmpty then
      some ((rest.headD eofToken).value)
    else fromStageNameArg rest
  | [] => none

/-- `parseFromInstruction`: stage name after `AS` (via
`fromStageNameArg`), `--platform=` flag, first non-flag `TOKEN_STRING`
argument as base image. -/
def parseFromInstruction (tokens : InstructionTokens) (inst : Instruction) :
    Except DockerfileError Instruction :=
  let args := tokens.arguments
  if args.isEmpty then
    .error { code := .codeInstructionError,
             message := "FROM instruction requires a base image",
             position := inst.range.start }
  else
    let inst := match fromStageNameArg args with
      | some n => { inst with flags := mapInsert inst.flags "stage" n }
      | none => inst
    let inst := match args.find? (fun a =>
        a.type == TOKEN_STRING && goStartsWith a.value "--platform=") with
      | some a => { inst with
          flags := mapInsert inst.flags "platform" (goTrimLeading a.value "--platform=") }
      | none => inst
    let inst := match args.find? (fun a =>
        a.type == TOKEN_STRING && !goStartsWith a.value "--") with
      | some a => { inst with args := inst.args ++ [a.value] }
      | none => inst
    .ok inst

/-- `parseJSONArrayForm`: decode the raw text of the first non-whitespace
argument token as a JSON string array; a decode failure is a
`CodeSyntaxError`, not a `CodeInstructionError`. -/
def parseJSONArrayForm (tokens : InstructionTokens) (inst : Instruction) :
    Except DockerfileError Instruction :=
  let jsonStr := match tokens.arguments.find? (fun t => t.type ≠ TOKEN_WHITESPACE) with
    | some t => t.raw
    | none => ""
  if jsonStr == "" then
    .error { code := .codeInstructionError,
             message := "Missing JSON array argument",
             position := inst.range.start }
  else
    match jsonUnmarshalStringArray jsonStr with
    | none =>
      .error { code := .codeSyntaxError,
               message := "Invalid JSON array: invalid JSON text",
               position := inst.range.start,
               snippet := jsonStr }
    | some args => .ok { inst with args := args, jsonForm := true }

/-- `parseRunInstruction`: JSON form via the shared routine; shell form
requires a nonempty argument string and attaches a heredoc when a
`TOKEN_HEREDOC_START` token is present in the raw token list. -/
def parseRunInstruction (tokens : InstructionTokens) (inst : Instruction) :
    Except DockerfileError Instruction :=
  if tokens.jsonForm then parseJSONArrayForm tokens inst
  else
    let args := tokens.GetArgumentsAsString
    if args == "" then
      .error { code := .codeInstructionError,
               message := "RUN instruction requires at least one argument",
               position := inst.range.start }
    else
      let inst := match tokens.raw.find? (fun t => t.type == TOKEN_HEREDOC_START) with
        | some startTok =>
          let heredocContent := match tokens.raw.find? (fun (t : Token) => t.type == TOKEN_HEREDOC_CONTENT) with
            | some t => t.value
            | none => ""
          if heredocContent ≠ "" then
            let h : Heredoc :=
              { identifier := startTok.value,
                content := heredocContent,
                delimiter := startTok.value,
                range :=
                  { start := { line := startTok.line, column := startTok.column },
                    «end» := { line := startTok.line +
                        Int.ofNat (heredocContent.data.count '\n') + 1, column := 0 } } }
            { inst with heredoc := some h }
          else inst
        | none => inst
      .ok { inst with args := [args] }

/-- `parseCmdInstruction` (also the body of ENTRYPOINT): JSON form via the
shared routine, shell form requires a nonempty argument string. -/
def parseCmdInstruction (tokens : InstructionTokens) (inst : Instruction) :
    Except DockerfileError Instruction :=
  if tokens.jsonForm then parseJSONArrayForm tokens inst
  else
    let args := tokens.GetArgumentsAsString
    if args == "" then
      .error { code := .codeInstructionError,
               message := "CMD instruction requires at least one argument",
               position := inst.range.start }
    else .ok { inst with args := [args] }

/-- `parseLabelInstruction` with the map iteration order made explicit:
`order` is the sequence in which Go's `for k, v := range pairs` visits the
entries of `parseKeyValuePairs`' result (any permutation of them). -/
def parseLabelInstructionOrd (tokens : InstructionTokens) (inst : Instruction)
    (order : List (String × String)) : Except DockerfileError Instruction :=
  let args := tokens.GetArgumentsAsString
  if args == "" then
    .error { code := .codeInstructionError,
             message := "LABEL instruction requires at least one key-value pair",
             position := inst.range.start }
  else
    .ok { inst with args := inst.args ++ order.map (fun kv => kv.1 ++ "=" ++ kv.2) }

/-- `parseLabelInstruction` at the canonical (insertion-order) enumeration
of the pair map. -/
def parseLabelInstruction (tokens : InstructionTokens) (inst : Instruction) :
    Except DockerfileError Instruction :=
  parseLabelInstructionOrd tokens inst (parseKeyValuePairs tokens.GetArgumentsAsString)

/-- `parseEnvInstruction` with the map iteration order made explicit
(same shape as LABEL, different message). -/
def parseEnvInstructionOrd (tokens : InstructionTokens) (inst : Instruction)
    (order : List (String × String)) : Except DockerfileError Instruction :=
  let args := tokens.GetArgumentsAsString
  if args == "" then
    .error { code := .codeInstructionError,
             message := "ENV instruction requires at least one variable",
             position := inst.range.start }
  else
    .ok { inst with args := inst.args ++ order.map (fun kv => kv.1 ++ "=" ++ kv.2) }

/-- `parseEnvInstruction` at the canonical enumeration of the pair map. -/
def parseEnvInstruction (tokens : InstructionTokens) (inst : Instruction) :
    Except DockerfileError Instruction :=
  parseEnvInstructionOrd tokens inst (parseKeyValuePairs tokens.GetArgumentsAsString)

/-- The per-token validation inside `parseExposeInstruction`'s loop:
protocol suffix must be `tcp` or `udp`, numeric part must satisfy
`strconv.Atoi`. Returns the error, if any, for one port token value. -/
def checkExposeToken (v : String) (pos : Position) : Option DockerfileError :=
  let port := v
  let protoErr : Option DockerfileError :=
    if goContainsChar port '/' then
      let parts := goSplit port '/'
      let protocol := (parts.drop 1).headD ""
      if protocol ≠ "tcp" && protocol ≠ "udp" then
        some { code := .codeInstructionError,
               message := "Invalid protocol: " ++ protocol ++ ". Must be tcp or udp",
               position := pos }
      else none
    else none
  match protoErr with
  | some e => some e
  | none =>
    let port := if goContainsChar port '/' then (goSplit port '/').headD "" else port
    match goAtoi port with
    | none => some { code := .codeInstructionError,
                     message := "Invalid port number: " ++ port,
                     position := pos }
    | some _ => none

/-- The port-collecting loop of `parseExposeInstruction`. -/
def exposeLoop (ts : List Token) (inst : Instruction) : Except DockerfileError Instruction :=
  match ts with
  | [] => .ok inst
  | t :: rest =>
    if t.type ≠ TOKEN_WHITESPACE then
      match checkExposeToken t.value { line := t.line, column := t.column } with
      | some e => .error e
      | none => exposeLoop rest { inst with args := inst.args ++ [t.value] }
    else exposeLoop rest inst

/-- `parseExposeInstruction`: at least one port token; each non-whitespace
token is validated by `checkExposeToken` and appended verbatim to the
argument list; the first failure aborts. -/
def parseExposeInstruction (tokens : InstructionTokens) (inst : Instruction) :
    Except DockerfileError Instruction :=
  if tokens.arguments.isEmpty then
    .error { code := .codeInstructionError,
             message := "EXPOSE instruction requires at least one port",
             position := inst.range.start }
  else
    exposeLoop tokens.arguments inst

/-- `parseAddCopyInstruction`: extracts `--chown=` / `--from=` / `--chmod=`
flags (recording `--from` values in `Dependencies`), requires two or more
remaining positional arguments, and rejects `--from` on `ADD`. -/
def parseAddCopyInstruction (tokens : InstructionTokens) (inst : Instruction) :
    Except DockerfileError Instruction :=
  let step := fun (st : List String × Bool × Instruction) (t : Token) =>
    let (args, hasFrom, inst) := st
    if t.type == TOKEN_STRING && goStartsWith t.value "--" then
      if goStartsWith t.value "--chown=" then
        (args, hasFrom,
         { inst with flags := mapInsert inst.flags "chown" (goTrimLeading t.value "--chown=") })
      else if goStartsWith t.value "--from=" then
        let fromValue := goTrimLeading t.value "--from="
        (args, true,
         { inst with flags := mapInsert inst.flags "from" fromValue,
                     dependencies := inst.dependencies ++ [fromValue] })
      else if goStartsWith t.value "--chmod=" then
        (args, hasFrom,
         { inst with flags := mapInsert inst.flags "chmod" (goTrimLeading t.value "--chmod=") })
      else (args, hasFrom, inst)
    else if t.type ≠ TOKEN_WHITESPACE then
      (args ++ [t.value], hasFrom, inst)
    else (args, hasFrom, inst)
  let (args, hasFrom, inst) := tokens.arguments.foldl step ([], false, inst)
  if args.length < 2 then
    .error { code := .codeInstructionError,
             message := inst.command ++ " instruction requires at least source and destination",
             position := inst.range.start }
  else
    let inst := { inst with args := args }
    if inst.command == "ADD" && hasFrom then
      .error { code := .codeInstructionError,
               message := "ADD does not support the --from flag",
               position := inst.range.start }
    else .ok inst

/-- `parseVolumeInstruction`: JSON form via the shared routine, otherwise
the non-whitespace argument values; at least one required. -/
def parseVolumeInstruction (tokens : InstructionTokens) (inst : Instruction) :
    Except DockerfileError Instruction :=
  if tokens.jsonForm then parseJSONArrayForm tokens inst
  else
    let vols := (tokens.arguments.filter (fun t => t.type ≠ TOKEN_WHITESPACE)).map
      (fun t => t.value)
    let inst := { inst with args := inst.args ++ vols }
    if inst.args.isEmpty then
      .error { code := .codeInstructionError,
               message := "VOLUME instruction requires at least one argument",
               position := inst.range.start }
    else .ok inst

/-- `parseUserInstruction`: nonempty raw argument string. -/
def parseUserInstruction (tokens : InstructionTokens) (inst : Instruction) :
    Except DockerfileError Instruction :=
  let args := tokens.GetArgumentsAsString
  if args == "" then
    .error { code := .codeInstructionError,
             message := "USER instruction requires a username or UID",
             position := inst.range.start }
  else .ok { inst with args := [args] }

/-- `parseWorkdirInstruction`: nonempty raw argument string. -/
def parseWorkdirInstruction (tokens : InstructionTokens) (inst : Instruction) :
    Except DockerfileError Instruction :=
  let args := tokens.GetArgumentsAsString
  if args == "" then
    .error { code := .codeInstructionError,
             message := "WORKDIR instruction requires a path",
             position := inst.range.start }
  else .ok { inst with args := [args] }

/-- `parseArgInstruction`: split on the first `=`; trimmed left side is
the name, an optional right side goes to `flags["default"]`. -/
def parseArgInstruction (tokens : InstructionTokens) (inst : Instruction) :
    Except DockerfileError Instruction :=
  let args := tokens.GetArgumentsAsString
  if args == "" then
    .error { code := .codeInstructionError,
             message := "ARG instruction requires a name",
             position := inst.range.start }
  else
    let parts := goSplitN2 args '='
    let name := goTrimSpace (parts.headD "")
    let inst := { inst with args := [name] }
    match parts with
    | _ :: v :: _ => .ok { inst with flags := mapInsert inst.flags "default" v }
    | _ => .ok inst

/-- `parseOnbuildInstruction`: nonempty trigger; the first non-whitespace
argument value must be neither `ONBUILD` (nesting) nor `FROM`. -/
def parseOnbuildInstruction (tokens : InstructionTokens) (inst : Instruction) :
    Except DockerfileError Instruction :=
  let args := tokens.GetArgumentsAsString
  if args == "" then
    .error { code := .codeInstructionError,
             message := "ONBUILD instruction requires another instruction as argument",
             position := inst.range.start }
  else
    let triggerInstruction := match tokens.arguments.find? (fun t => t.type ≠ TOKEN_WHITESPACE) with
      | some t => t.value
      | none => ""
    if triggerInstruction == "ONBUILD" then
      .error { code := .codeInstructionError,
               message := "ONBUILD cannot be nested (ONBUILD ONBUILD ...)",
               position := inst.range.start }
    else if triggerInstruction == "FROM" then
      .error { code := .codeInstructionError,
               message := "ONBUILD cannot trigger FROM instruction",
               position := inst.range.start }
    else .ok { inst with args := [args] }

/-- `parseStopsignalInstruction`: the trimmed argument must satisfy
`strconv.Atoi` or start with `SIG`. -/
def parseStopsignalInstruction (tokens : InstructionTokens) (inst : Instruction) :
    Except DockerfileError Instruction :=
  let args := tokens.GetArgumentsAsString
  if args == "" then
    .error { code := .codeInstructionError,
             message := "STOPSIGNAL instruction requires a signal",
             position := inst.range.start }
  else
    let signal := goTrimSpace args
    match goAtoi signal with
    | some _ => .ok { inst with args := [signal] }
    | none =>
      if !goStartsWith signal "SIG" then
        .error { code := .codeInstructionError,
                 message := "Invalid signal format: " ++ signal,
                 position := inst.range.start }
      else .ok { inst with args := [signal] }

/-- The flag/CMD consuming loop of `parseHealthcheckInstruction` (index
loop with a one-token lookahead for flag values). -/
def healthcheckLoop (flags : List (String × String)) (args : List String)
    (ts : List Token) : List (String × String) × List String × Bool :=
  match ts with
  | [] => (flags, args, false)
  | t :: rest =>
    if t.type == TOKEN_WHITESPACE then healthcheckLoop flags args rest
    else if goStartsWith t.value "--" then
      match rest with
      | t2 :: rest2 =>
        if t2.type ≠ TOKEN_WHITESPACE then
          healthcheckLoop (mapInsert flags (goTrimLeading t.value "--") t2.value) args rest2
        else healthcheckLoop flags args (t2 :: rest2)
      | [] => (flags, args, false)
    else if t.value == "CMD" then
      let cmdArgs := (rest.filter (fun x => x.type ≠ TOKEN_WHITESPACE)).foldl
        (fun acc x => acc ++ x.value ++ " ") ""
      (flags, args ++ ["CMD", goTrimSpace cmdArgs], true)
    else healthcheckLoop flags (args ++ [t.value]) rest
termination_by ts.length
decreasing_by all_goals simp [List.length_cons] <;> omega

/-- `parseHealthcheckInstruction`: `NONE` alone is valid; otherwise flag
pairs are consumed and a literal `CMD` token is required. -/
def parseHealthcheckInstruction (tokens : InstructionTokens) (inst : Instruction) :
    Except DockerfileError Instruction :=
  let firstArg := match tokens.arguments.find? (fun t => t.type ≠ TOKEN_WHITESPACE) with
    | some t => t.value
    | none => ""
  if firstArg == "NONE" then
    .ok { inst with args := ["NONE"] }
  else
    let (flags, args, cmdFound) := healthcheckLoop inst.flags [] tokens.arguments
    if !cmdFound && firstArg ≠ "NONE" then
      .error { code := .codeInstructionError,
               message := "HEALTHCHECK requires CMD or NONE",
               position := inst.range.start }
    else .ok { inst with flags := flags, args := args }

/-- `parseShellInstruction`: JSON form is mandatory. -/
def parseShellInstruction (tokens : InstructionTokens) (inst : Instruction) :
    Except DockerfileError Instruction :=
  if !tokens.jsonForm then
    .error { code := .codeInstructionError,
             message := "SHELL instruction requires JSON array format",
             position := inst.range.start }
  else parseJSONArrayForm tokens inst

/-- The pre-dispatch construction in `ParseInstruction`: command, raw
argument string, comment concatenation, and source range. -/
def baseInstructionOf (tokens : InstructionTokens) : Instruction :=
  let inst : Instruction :=
    { command := tokens.GetInstructionValue,
      raw := tokens.GetArgumentsAsString,
      flags := [],
      range := { start := { line := tokens.instruction.line,
                            column := tokens.instruction.column } },
      jsonForm := tokens.jsonForm }
  let inst := if !tokens.comments.isEmpty then
      let commentStr := tokens.comments.foldl
        (fun acc cmt => acc ++ goTrimSpace (goTrimLeading cmt.value "#") ++ "\n") ""
      { inst with comment := goTrimSuffix commentStr "\n" }
    else inst
  match tokens.raw.getLast? with
  | some lastToken =>
    { inst with range := { inst.range with
        «end» := { line := lastToken.line,
                   column := lastToken.column + Int.ofNat lastToken.value.data.length } } }
  | none => inst

/-- Go `InstructionParser.ParseInstruction`: builds the base instruction
and dispatches on the command name (LABEL and ENV use the canonical map
enumeration; see `parseLabelInstructionOrd` for the order-explicit form). -/
def ParseInstruction (tokens : InstructionTokens) : Except ParseError Instruction :=
  let inst := baseInstructionOf tokens
  let lift : Except DockerfileError Instruction → Except ParseError Instruction
    | .error e => .error (.dockerfile e)
    | .ok i => .ok i
  match tokens.GetInstructionValue with
  | "FROM" => lift (parseFromInstruction tokens inst)
  | "RUN" => lift (parseRunInstruction tokens inst)
  | "CMD" => lift (parseCmdInstruction tokens inst)
  | "LABEL" => lift (parseLabelInstruction tokens inst)
  | "EXPOSE" => lift (parseExposeInstruction tokens inst)
  | "ENV" => lift (parseEnvInstruction tokens inst)
  | "ADD" => lift (parseAddCopyInstruction tokens inst)
  | "COPY" => lift (parseAddCopyInstruction tokens inst)
  | "ENTRYPOINT" => lift (parseCmdInstruction tokens inst)
  | "VOLUME" => lift (parseVolumeInstruction tokens inst)
  | "USER" => lift (parseUserInstruction tokens inst)
  | "WORKDIR" => lift (parseWorkdirInstruction tokens inst)
  | "ARG" => lift (parseArgInstruction tokens inst)
  | "ONBUILD" => lift (parseOnbuildInstruction tokens inst)
  | "STOPSIGNAL" => lift (parseStopsignalInstruction tokens inst)
  | "HEALTHCHECK" => lift (parseHealthcheckInstruction tokens inst)
  | "SHELL" => lift (parseShellInstruction tokens inst)
  | cmd => .error (.unknownInstruction cmd)

/-! ## Lexer state machine (`internal/lexer/lexer.go`)

The Scanner's `Scan` method is absent from the repository (its file says
"Core scanning methods from previous implementation..."), so, modelled
from the spec, the scanner is represented by the list of tokens it would
yield in order; `Scan` pops the next token and fails with `io.EOF` when
the list is exhausted. Everything above that (the Lexer proper) is
embedded from the source. -/

/-- The mutable state of a Go `lexer.Lexer` (the `scanner` field holds the
remaining token stream; `position` is unused by the embedded methods). -/
structure LexState where
  scanner : List Token
  currentToken : Token := eofToken
  peekToken : Token := eofToken
  tokens : List Token := []
  errors : List DockerfileError := []
  inHeredoc : Bool := false
  heredocID : String := ""
deriving DecidableEq, Repr

/-- The heredoc bookkeeping and buffering shared by both exits of
`nextToken`: record heredoc start/end, append to `l.tokens`, set peek. -/
def lexAccept (s : LexState) (t : Token) (rest : List Token) : LexState :=
  let s := { s with scanner := rest }
  let s :=
    if t.type == TOKEN_HEREDOC_START then
      { s with inHeredoc := true, heredocID := t.value }
    else if s.inHeredoc && t.type == TOKEN_HEREDOC_END && t.value == s.heredocID then
      { s with inHeredoc := false }
    else s
  { s with tokens := s.tokens ++ [t], peekToken := t }

/-- Go `Lexer.nextToken`: shift peek into current, scan the next token
(skipping a single whitespace token when not in heredoc mode), and accept
it; at end of input the peek becomes `&Token{Type: TOKEN_EOF}`. -/
def lexNextTokenAux (s : LexState) : LexState :=
  let s := { s with currentToken := s.peekToken }
  match s.scanner with
  | [] => { s with peekToken := eofToken }
  | t :: rest =>
    if !s.inHeredoc && t.type == TOKEN_WHITESPACE then
      match rest with
      | [] => { s with scanner := [], peekToken := eofToken }
      | t2 :: rest2 => lexAccept s t2 rest2
    else lexAccept s t rest

/-- Go `Lexer.NextToken`: return the current token and advance. -/
def lexNextToken (s : LexState) : Token × LexState :=
  (s.currentToken, lexNextTokenAux s)

/-- Go `NewLexer`: construct the lexer and eagerly read the first two
tokens. -/
def newLexer (stream : List Token) : LexState :=
  lexNextTokenAux (lexNextTokenAux { scanner := stream })

/-- Go `Lexer.TokenizeLine`'s accumulation loop, fuelled: accumulate
tokens until EOF or a NEWLINE not protected by a pending continuation.
`fuel` only needs to dominate the remaining stream length. -/
def tokenizeLineFuel : Nat → LexState → List Token → Bool → List Token × LexState
  | 0, s, acc, _ => (acc, s)
  | fuel + 1, s, acc, continuationMode =>
    let (token, s') := lexNextToken s
    if token.type == TOKEN_EOF then (acc, s')
    else
      let acc' := acc ++ [token]
      if token.type == TOKEN_CONTINUATION then
        tokenizeLineFuel fuel s' acc' true
      else if token.type == TOKEN_NEWLINE then
        if !continuationMode then (acc', s')
        else tokenizeLineFuel fuel s' acc' false
      else tokenizeLineFuel fuel s' acc' continuationMode

/-- Go `Lexer.TokenizeLine` (the `error` result is always `nil` in the
source and is dropped). -/
def tokenizeLine (s : LexState) : List Token × LexState :=
  tokenizeLineFuel (s.scanner.length + 2) s [] false

/-- Go `Lexer.ProcessInstructionLine`: `.ok none` models the
`(nil, nil)` return for empty or comment-only lines. -/
def processInstructionLine (s : LexState) :
    Except DockerfileError (Option InstructionTokens) × LexState :=
  let (tokens, s') := tokenizeLine s
  match tokens with
  | [] => (.ok none, s')
  | first :: _ =>
    if first.type == TOKEN_COMMENT then (.ok none, s')
    else if !first.IsInstruction then
      (.error { code := .codeSyntaxError,
                message := "Line must start with an instruction",
                position := { line := first.line, column := first.column },
                snippet := first.raw }, s')
    else
      let rest := tokens.drop 1
      (.ok (some
        { instruction := first,
          arguments := rest.filter (fun t =>
            t.type ≠ TOKEN_COMMENT && t.type ≠ TOKEN_NEWLINE && t.type ≠ TOKEN_CONTINUATION),
          comments := rest.filter (fun t => t.type == TOKEN_COMMENT),
          raw := tokens,
          jsonForm := false }), s')

/-- The resynchronization loop of `ProcessAllInstructions`: skip forward
until the current token is a NEWLINE or EOF. -/
def skipToNewlineFuel : Nat → LexState → LexState
  | 0, s => s
  | fuel + 1, s =>
    if s.currentToken.type ≠ TOKEN_EOF && s.currentToken.type ≠ TOKEN_NEWLINE then
      skipToNewlineFuel fuel (lexNextToken s).2
    else s

/-- Go `Lexer.ProcessAllInstructions`, fuelled on the number of logical
lines: per-line errors are recorded in `l.errors` and the lexer skips to
the next NEWLINE/EOF before continuing. -/
def processAllInstructionsFuel :
    Nat → LexState → List InstructionTokens → List InstructionTokens × List DockerfileError × LexState
  | 0, s, acc => (acc, s.errors, s)
  | fuel + 1, s, acc =>
    if s.currentToken.type == TOKEN_EOF then (acc, s.errors, s)
    else
      match processInstructionLine s with
      | (.error e, s') =>
        let s'' := { s' with errors := s'.errors ++ [e] }
        processAllInstructionsFuel fuel (skipToNewlineFuel (s''.scanner.length + 2) s'') acc
      | (.ok none, s') => processAllInstructionsFuel fuel s' acc
      | (.ok (some inst), s') => processAllInstructionsFuel fuel s' (acc ++ [inst])

/-- Go `Lexer.ProcessAllInstructions` on a lexer state. -/
def processAllInstructions (s : LexState) :
    List InstructionTokens × List DockerfileError × LexState :=
  processAllInstructionsFuel (s.scanner.length + 3) s []

/-! ## Stage detection (`lexer.go`, `DetectStages`)

The per-instruction loop of `DetectStages` is pure in the instruction
list, so it is factored out of the stateful wrapper; the wrapper then
matches the Go method exactly: run `ProcessAllInstructions`, fail on the
first recorded error, otherwise fold the loop and close the last stage. -/

/-- Go `lexer.StageInfo`. -/
structure StageInfo where
  index : Int
  name : String
  baseImage : String
  startLine : Int
  endLine : Int
deriving DecidableEq, Repr

/-- The initial `currentStage := StageInfo{Index: 0}` (zero values
elsewhere). -/
def initialStage : StageInfo :=
  { index := 0, name := "", baseImage := "", startLine := 0, endLine := 0 }

/-- The stage-name extraction inside `DetectStages`: the value of the
token following the first `TOKEN_AS` that has a successor. -/
def extractStageName : List Token → String
  | [] => ""
  | a :: rest =>
    if a.type == TOKEN_AS && !rest.isEmpty then (rest.headD eofToken).value
    else extractStageName rest

/-- The stage opened by a `FROM` instruction in `DetectStages`:
`BaseImage` is the value of the *first* argument token (flag or not). -/
def newStageOf (idx : Int) (inst : InstructionTokens) : StageInfo :=
  { index := idx,
    name := extractStageName inst.arguments,
    baseImage := (inst.arguments.headD eofToken).value,
    startLine := inst.instruction.line,
    endLine := 0 }

/-- The `for _, inst := range instructions` loop of `DetectStages`:
each `FROM` appends the previously open stage (closed at the new FROM's
line minus one) and opens a new one. -/
def detectStagesLoop :
    List InstructionTokens → StageInfo → Int → List StageInfo → StageInfo × Int × List StageInfo
  | [], cur, idx, acc => (cur, idx, acc)
  | inst :: rest, cur, idx, acc =>
    if inst.GetInstructionValue == "FROM" then
      let acc' := if cur.startLine > 0 then
          acc ++ [{ cur with endLine := inst.instruction.line - 1 }]
        else acc
      detectStagesLoop rest (newStageOf idx inst) (idx + 1) acc'
    else detectStagesLoop rest cur idx acc

/-- The pure body of `DetectStages`: run the loop from the initial state
and, when a stage is still open, close it at the last instruction's line
(`len(instructions) > 0` guard reproduced) and append it. -/
def detectStagesFromInstructions (insts : List InstructionTokens) : List StageInfo :=
  let r := detectStagesLoop insts initialStage 0 []
  let cur := r.1
  let acc := r.2.2
  if cur.startLine > 0 then
    match insts.getLast? with
    | some lastInst => acc ++ [{ cur with endLine := lastInst.instruction.line }]
    | none => acc ++ [cur]
  else acc

/-- Go `Lexer.DetectStages`: tokenize everything, abort with the first
recorded error if any, otherwise detect stages. -/
def detectStages (s : LexState) :
    Except DockerfileError (List StageInfo) × LexState :=
  let (insts, errs, s') := processAllInstructions s
  match errs with
  | e :: _ => (.error e, s')
  | [] => (.ok (detectStagesFromInstructions insts), s')

/-! ## Variable detection (`lexer.go`, `DetectVariables`) -/

/-- Go `lexer.VariableInfo` (`Type` is `"ARG"` or `"ENV"`). -/
structure VariableInfo where
  name : String
  varType : String
  value : String
  line : Int
  column : Int
  stageIdx : Int
deriving DecidableEq, Repr

/-- Go `parseVariableDeclarations`: split the argument string on spaces;
`KEY=VALUE` parts split at the first `=`, bare parts map to `""`. The
result is a `map[string]string`, modelled as its insertion-order entry
list. -/
def parseVariableDeclarations (args : String) : List (String × String) :=
  (goSplit args ' ').foldl
    (fun result part =>
      if part == "" then result
      else if goContainsChar part '=' then
        match goSplitN2 part '=' with
        | k :: v :: _ => mapInsert result k v
        | [k] => mapInsert result k ""
        | [] => result
      else mapInsert result part "")
    []

/-- The stage-index search in `DetectVariables`: the first stage whose
line range contains the instruction line (`EndLine == 0` meaning open),
with `-1` when none matches. -/
def stageIdxGo (line : Int) : List StageInfo → Int → Int
  | [], _ => -1
  | stage :: rest, i =>
    if line ≥ stage.startLine && (stage.endLine == 0 || line ≤ stage.endLine) then i
    else stageIdxGo line rest (i + 1)

/-- The first matching stage index, `-1` when none matches. -/
def stageIdxFor (stages : List StageInfo) (line : Int) : Int :=
  stageIdxGo line stages 0

/-- Go `Lexer.DetectVariables`: detect stages (returning no variables on
error), pull the instruction list *again from the same lexer*, and emit
one `VariableInfo` per declaration of each ARG/ENV instruction. The
enumeration of the declaration map uses the canonical insertion order
(Go's map iteration order is arbitrary; the claims checked here do not
depend on it). -/
def detectVariables (s : LexState) : List VariableInfo :=
  match detectStages s with
  | (.error _, _) => []
  | (.ok stages, s') =>
    let (instructions, _, _) := processAllInstructions s'
    instructions.foldl
      (fun vars inst =>
        let instType := inst.GetInstructionValue
        if instType ≠ "ARG" && instType ≠ "ENV" then vars
        else
          let stageIdx := stageIdxFor stages inst.instruction.line
          let declarations := parseVariableDeclarations inst.GetArgumentsAsString
          vars ++ declarations.map (fun kv =>
            { name := kv.1, varType := instType, value := kv.2,
              line := inst.instruction.line, column := inst.instruction.column,
              stageIdx := stageIdx }))
      []

/-! ## Scanner heredoc scanning (`internal/lexer/scanner.go`)

`peekLine` and `scanHeredocContent` are embedded at the level of the
`bufio.Reader` they drive: the reader is the list of not-yet-read runes,
`ReadRune` pops the head and `UnreadRune` pushes the last rune back.
Both loops are fuelled; returning `none` (resp. `.diverged`) means the
fuel ran out, so a result of `none` *for every fuel* is non-termination
of the Go loop. -/

/-- Go `Scanner.peekLine` as written: each iteration reads a rune and,
when it is not a newline, writes it to the peek buffer and *unreads it
again*, so the reader is left exactly where it was. `some (line, reader)`
is a completed call; `none` means the fuel ran out. -/
def peekLineFuel : Nat → List Char → String → Option (String × List Char)
  | 0, _, _ => none
  | fuel + 1, reader, buf =>
    match reader with
    | [] => some (buf, [])
    | ch :: rest =>
      if ch == '\n' then some (buf, ch :: rest)
      else peekLineFuel fuel (ch :: rest) (buf.push ch)

/-- Result of running `scanHeredocContent` with finite fuel. -/
inductive HeredocScan where
  | diverged
  | scanError
  | ok (content : String) (reader : List Char)
deriving DecidableEq, Repr

/-- Go `Scanner.scanHeredocContent` as written: scan runes into the
buffer; on each newline, peek the next line and, when its trimmed text
equals the heredoc word, consume `len(word)+1` runes and finish — the
newline that triggered the check is *not* written to the buffer. -/
def scanHeredocContentFuel (heredocWord : String) : Nat → List Char → String → HeredocScan
  | 0, _, _ => .diverged
  | fuel + 1, reader, buf =>
    match reader with
    | [] => .scanError
    | ch :: rest =>
      if ch == '\n' then
        match peekLineFuel fuel rest "" with
        | none => .diverged
        | some (nextLine, reader') =>
          if goTrimSpace nextLine == heredocWord then
            .ok buf (reader'.drop (heredocWord.data.length + 1))
          else scanHeredocContentFuel heredocWord fuel reader' (buf.push ch)
      else scanHeredocContentFuel heredocWord fuel rest (buf.push ch)

/-- `peekLine` never terminates when the next unread rune is not a
newline: the reader state is unchanged by each iteration. -/
theorem peekLineFuel_none (c : Char) (hc : ¬c == '\n') :
    ∀ (fuel : Nat) (cs : List Char) (buf : String),
      peekLineFuel fuel (c :: cs) buf = none := by
  intro fuel
  induction fuel with
  | zero => intro cs buf; rfl
  | succ n ih =>
    intro cs buf
    simp only [peekLineFuel, hc, if_neg]
    exact ih cs (buf.push c)

/-! ## Spec-side stage construction (for comparison with `DetectStages`)

`specStages` is written from the spec's description of stage detection,
amended at one point where the code differs (`baseImage` is the *first*
argument token, flag or not — the counterexample for the original
wording, which asked for the first non-flag argument, is
`specFirstNonFlagArg`). -/

/-- The spec's wording for the base image: "the first non-flag
argument". -/
def specFirstNonFlagArg (args : List Token) : Option String :=
  (args.find? (fun a => !goStartsWith a.value "--")).map (fun a => a.value)

/-- Stage list as described by §4.3 of the spec (with the amended
`baseImage` clause): the k-th `FROM` opens stage k at its line; a
following `FROM` closes it at that FROM's line minus one; the final
stage closes at `lastLine`, the last instruction's line. -/
def specStages (lastLine : Int) : Int → List InstructionTokens → List StageInfo
  | _, [] => []
  | k, [f] => [{ newStageOf k f with endLine := lastLine }]
  | k, f :: f' :: fs =>
    { newStageOf k f with endLine := f'.instruction.line - 1 }
      :: specStages lastLine (k + 1) (f' :: fs)

/-- The predicate selecting `FROM` instructions in `DetectStages`. -/
def isFromIT (it : InstructionTokens) : Bool :=
  it.GetInstructionValue == "FROM"

/-- The line of the last instruction, `0` for an empty list (the Go code
only reads it when the list is nonempty). -/
def lastLineOf (insts : List InstructionTokens) : Int :=
  match insts.getLast? with
  | some it => it.instruction.line
  | none => 0

/-- Closing the still-open stage at the end of the loop. -/
def finalizeStages (r : StageInfo × Int × List StageInfo) (lastLine : Int) : List StageInfo :=
  if r.1.startLine > 0 then r.2.2 ++ [{ r.1 with endLine := lastLine }] else r.2.2

/-- Continuation of the spec construction when a stage `cur` is already
open with `idx` the next index: the remaining FROMs close it either at
the next FROM's line minus one or at `lastLine`. -/
def specStagesCont (lastLine : Int) (cur : StageInfo) (idx : Int) :
    List InstructionTokens → List StageInfo
  | [] => [{ cur with endLine := lastLine }]
  | f :: fs =>
    { cur with endLine := f.instruction.line - 1 } :: specStages lastLine idx (f :: fs)

theorem specStagesCont_newStage (L : Int) (idx : Int) (f : InstructionTokens) :
    ∀ fs, specStagesCont L (newStageOf idx f) (idx + 1) fs = specStages L idx (f :: fs) := by
  intro fs
  cases fs with
  | nil => rfl
  | cons f' fs' => rfl

/-- The loop of `DetectStages`, finalized at an arbitrary last line,
computes the spec construction, provided every instruction sits on a
positive line (true of every token the scanner produces, which starts
counting at line 1). -/
theorem detectStagesLoop_spec (L : Int) :
    ∀ (insts : List InstructionTokens) (cur : StageInfo) (idx : Int) (acc : List StageInfo),
      (∀ it ∈ insts, 1 ≤ it.instruction.line) →
      finalizeStages (detectStagesLoop insts cur idx acc) L =
        (if cur.startLine > 0 then
          acc ++ specStagesCont L cur idx (insts.filter isFromIT)
        else
          acc ++ specStages L idx (insts.filter isFromIT)) := by
  intro insts
  induction insts with
  | nil =>
    intro cur idx acc _
    by_cases h : cur.startLine > 0 <;>
      simp [detectStagesLoop, finalizeStages, h, specStagesCont, specStages]
  | cons inst rest ih =>
    intro cur idx acc hline
    have hinst : (1 : Int) ≤ inst.instruction.line := hline inst (by simp)
    have hrest : ∀ it ∈ rest, 1 ≤ it.instruction.line := by
      intro it hit; exact hline it (by simp [hit])
    by_cases hf : inst.GetInstructionValue == "FROM"
    · have hstep : detectStagesLoop (inst :: rest) cur idx acc =
          detectStagesLoop rest (newStageOf idx inst) (idx + 1)
            (if cur.startLine > 0 then
              acc ++ [{ cur with endLine := inst.instruction.line - 1 }]
            else acc) := by
        simp [detectStagesLoop, hf]
      have hfil : (inst :: rest).filter isFromIT = inst :: rest.filter isFromIT := by
        simp [List.filter_cons, isFromIT, hf]
      have hopen : (newStageOf idx inst).startLine > 0 := by
        simp only [newStageOf]; omega
      rw [hstep, ih _ _ _ hrest, if_pos hopen, specStagesCont_newStage, hfil]
      by_cases hc : cur.startLine > 0
      · rw [if_pos hc, if_pos hc, List.append_assoc]
        rfl
      · rw [if_neg hc, if_neg hc]
    · have hstep : detectStagesLoop (inst :: rest) cur idx acc =
          detectStagesLoop rest cur idx acc := by
        simp [detectStagesLoop, hf]
      have hfil : (inst :: rest).filter isFromIT = rest.filter isFromIT := by
        simp [List.filter_cons, isFromIT, hf]
      rw [hstep, ih cur idx acc hrest, hfil]

/-- On a nonempty instruction list, `detectStagesFromInstructions` is the
loop followed by `finalizeStages` at the last instruction's line. -/
theorem detectStages_eq_finalize (insts : List InstructionTokens)
    (l : InstructionTokens) (hl : insts.getLast? = some l) :
    detectStagesFromInstructions insts =
      finalizeStages (detectStagesLoop insts initialStage 0 []) (lastLineOf insts) := by
  unfold detectStagesFromInstructions finalizeStages lastLineOf
  rw [hl]

/-- `detectStagesFromInstructions` equals the spec construction on
positive-line inputs. -/
theorem detectStagesFromInstructions_eq_spec
    (insts : List InstructionTokens)
    (hline : ∀ it ∈ insts, 1 ≤ it.instruction.line) :
    detectStagesFromInstructions insts =
      specStages (lastLineOf insts) 0 (insts.filter isFromIT) := by
  have key := detectStagesLoop_spec (lastLineOf insts) insts initialStage 0 [] hline
  have hinit : ¬(initialStage.startLine > 0) := by simp [initialStage]
  rw [if_neg hinit] at key
  cases hinsts : insts with
  | nil => rfl
  | cons a rest =>
    cases hl : (a :: rest).getLast? with
    | none => simp at hl
    | some l =>
      rw [detectStages_eq_finalize (a :: rest) l hl]
      rw [hinsts] at key
      rw [key]
      simp

/-! ## Index-sequence helper (for the stage-index invariant) -/

/-- The list `[k, k+1, ..., k+n-1]`. -/
def intRangeFrom (k : Int) : Nat → List Int
  | 0 => []
  | n + 1 => k :: intRangeFrom (k + 1) n

theorem specStages_map_index (L : Int) :
    ∀ (fs : List InstructionTokens) (k : Int),
      (specStages L k fs).map (fun s => s.index) = intRangeFrom k fs.length := by
  intro fs
  induction fs with
  | nil => intro k; rfl
  | cons f fs' ih =>
    intro k
    cases fs' with
    | nil => rfl
    | cons f' fs'' =>
      simp only [specStages, List.map_cons, List.length_cons, intRangeFrom]
      rw [ih (k + 1)]
      simp [intRangeFrom, newStageOf]

/-! ## Result projections used by the claim statements -/

/-- The `DockerfileError` code of a failed parse, `none` on success or on
a non-`DockerfileError` failure. -/
def parseErrorCodeOf : Except ParseError Instruction → Option ErrorCode
  | .error (.dockerfile e) => some e.code
  | _ => none

/-- The `DockerfileError` message of a failed parse. -/
def parseErrorMessageOf : Except ParseError Instruction → Option String
  | .error (.dockerfile e) => some e.message
  | _ => none

/-- `ProcessAllInstructions` run on a fresh lexer over a scanner stream,
keeping only the Go method's two results. -/
def processAllInstructionsRun (stream : List Token) :
    List InstructionTokens × List DockerfileError :=
  let r := processAllInstructions (newLexer stream)
  (r.1, r.2.1)

/-- Agreement of two parse results up to the order of `Args`: equal
errors, or instructions equal in every field with `Args` lists that are
permutations of each other. -/
def resultsAgreeUpToArgsPerm :
    Except DockerfileError Instruction → Except DockerfileError Instruction → Prop
  | .error e₁, .error e₂ => e₁ = e₂
  | .ok i₁, .ok i₂ => { i₁ with args := [] } = { i₂ with args := [] } ∧ i₁.args.Perm i₂.args
  | _, _ => False

/-! ## Concrete inputs for the claims

The Scanner's `Scan` method and the glue that feeds `InstructionTokens`
into `ParseInstruction` are absent from the repository, so the token
groups below are modelled from the spec (§4.1–4.2): instruction keywords
scan to their instruction token types, bare words to `TOKEN_STRING`, a
bracketed body scans to one `TOKEN_STRING` whose raw text is the whole
JSON literal (`scanJSONArray`), lines are 1-based, and `jsonForm` is set
positionally — exactly when the argument text starts with `[`. -/

/-- Builder for concrete test tokens (`Raw` = `Value`, as produced by the
scanner for ordinary tokens). -/
def mkTok (ty : TokenType) (v : String) (ln col : Int) : Token :=
  { type := ty, value := v, line := ln, column := col,
    length := Int.ofNat v.data.length, raw := v }

/-- A NEWLINE token ending line `ln`. -/
def nlTok (ln : Int) : Token := mkTok TOKEN_NEWLINE "\n" ln 80

/-- Modelled from the spec: the token group for `CMD ["a","b c","d"]`
(JSON form, one argument token carrying the raw JSON text). -/
def cmdJsonLine : InstructionTokens :=
  { instruction := mkTok TOKEN_INSTRUCTION_CMD "CMD" 1 1,
    arguments := [mkTok TOKEN_STRING "[\"a\",\"b c\",\"d\"]" 1 5],
    comments := [],
    raw := [mkTok TOKEN_INSTRUCTION_CMD "CMD" 1 1,
            mkTok TOKEN_STRING "[\"a\",\"b c\",\"d\"]" 1 5, nlTok 1],
    jsonForm := true }

/-- Modelled from the spec: the token group for `CMD echo hi`
(shell form). -/
def cmdShellLine : InstructionTokens :=
  { instruction := mkTok TOKEN_INSTRUCTION_CMD "CMD" 1 1,
    arguments := [mkTok TOKEN_STRING "echo" 1 5, mkTok TOKEN_STRING "hi" 1 10],
    comments := [],
    raw := [mkTok TOKEN_INSTRUCTION_CMD "CMD" 1 1,
            mkTok TOKEN_STRING "echo" 1 5, mkTok TOKEN_STRING "hi" 1 10, nlTok 1],
    jsonForm := false }

/-- Modelled from the spec: the token group for `CMD [invalid json`
(bracket-led, hence JSON form, with malformed JSON text). -/
def cmdBadJsonLine : InstructionTokens :=
  { instruction := mkTok TOKEN_INSTRUCTION_CMD "CMD" 1 1,
    arguments := [mkTok TOKEN_STRING "[invalid json" 1 5],
    comments := [],
    raw := [mkTok TOKEN_INSTRUCTION_CMD "CMD" 1 1,
            mkTok TOKEN_STRING "[invalid json" 1 5, nlTok 1],
    jsonForm := true }

/-- The argument tokens of `--from=builder /src /dst` under `COPY`. -/
def copyFromLine : InstructionTokens :=
  { instruction := mkTok TOKEN_INSTRUCTION_COPY "COPY" 1 1,
    arguments := [mkTok TOKEN_STRING "--from=builder" 1 6,
                  mkTok TOKEN_STRING "/src" 1 21, mkTok TOKEN_STRING "/dst" 1 26],
    comments := [],
    raw := [mkTok TOKEN_INSTRUCTION_COPY "COPY" 1 1,
            mkTok TOKEN_STRING "--from=builder" 1 6,
            mkTok TOKEN_STRING "/src" 1 21, mkTok TOKEN_STRING "/dst" 1 26, nlTok 1],
    jsonForm := false }

/-- The same argument tokens issued under `ADD`. -/
def addFromLine : InstructionTokens :=
  { copyFromLine with instruction := mkTok TOKEN_INSTRUCTION_ADD "ADD" 1 1 }

/-- The token group for `EXPOSE 8080/tcp 9090/udp 70000`. -/
def exposeLine : InstructionTokens :=
  { instruction := mkTok TOKEN_INSTRUCTION_EXPOSE "EXPOSE" 1 1,
    arguments := [mkTok TOKEN_STRING "8080/tcp" 1 8,
                  mkTok TOKEN_STRING "9090/udp" 1 17, mkTok TOKEN_STRING "70000" 1 26],
    comments := [], raw := [], jsonForm := false }

/-- The token group for `ONBUILD ONBUILD RUN x`. -/
def onbuildNestedLine : InstructionTokens :=
  { instruction := mkTok TOKEN_INSTRUCTION_ONBUILD "ONBUILD" 1 1,
    arguments := [mkTok TOKEN_INSTRUCTION_ONBUILD "ONBUILD" 1 9,
                  mkTok TOKEN_INSTRUCTION_RUN "RUN" 1 17, mkTok TOKEN_STRING "x" 1 21],
    comments := [], raw := [], jsonForm := false }

/-- The token group for `ONBUILD FROM scratch`. -/
def onbuildFromLine : InstructionTokens :=
  { instruction := mkTok TOKEN_INSTRUCTION_ONBUILD "ONBUILD" 1 1,
    arguments := [mkTok TOKEN_INSTRUCTION_FROM "FROM" 1 9,
                  mkTok TOKEN_STRING "scratch" 1 14],
    comments := [], raw := [], jsonForm := false }

/-- The token group for `ONBUILD RUN echo hi`. -/
def onbuildRunLine : InstructionTokens :=
  { instruction := mkTok TOKEN_INSTRUCTION_ONBUILD "ONBUILD" 1 1,
    arguments := [mkTok TOKEN_INSTRUCTION_RUN "RUN" 1 9,
                  mkTok TOKEN_STRING "echo" 1 13, mkTok TOKEN_STRING "hi" 1 18],
    comments := [], raw := [], jsonForm := false }

/-- The token group for `LABEL a=1 b=2`. -/
def labelPairsLine : InstructionTokens :=
  { instruction := mkTok TOKEN_INSTRUCTION_LABEL "LABEL" 1 1,
    arguments := [mkTok TOKEN_STRING "a=1" 1 7, mkTok TOKEN_STRING "b=2" 1 11],
    comments := [], raw := [], jsonForm := false }

/-- One possible iteration order of the pair map of `LABEL a=1 b=2`. -/
def labelOrderA : List (String × String) := [("a", "1"), ("b", "2")]

/-- The other iteration order of the same two-entry map. -/
def labelOrderB : List (String × String) := [("b", "2"), ("a", "1")]

/-- Modelled from the spec: the scanner stream for the three-line input
`foo bar` / `RUN echo hi` / `CMD echo bye`, whose first logical line is
malformed (it does not start with an instruction keyword). -/
def badThenGoodStream : List Token :=
  [mkTok TOKEN_STRING "foo" 1 1, mkTok TOKEN_STRING "bar" 1 5, nlTok 1,
   mkTok TOKEN_INSTRUCTION_RUN "RUN" 2 1, mkTok TOKEN_STRING "echo" 2 5,
   mkTok TOKEN_STRING "hi" 2 10, nlTok 2,
   mkTok TOKEN_INSTRUCTION_CMD "CMD" 3 1, mkTok TOKEN_STRING "echo" 3 5,
   mkTok TOKEN_STRING "bye" 3 10, nlTok 3]

/-- Modelled from the spec: the scanner stream for
`FROM ubuntu` / `ARG FOO=bar`. -/
def fromArgStream : List Token :=
  [mkTok TOKEN_INSTRUCTION_FROM "FROM" 1 1, mkTok TOKEN_STRING "ubuntu" 1 6, nlTok 1,
   mkTok TOKEN_INSTRUCTION_ARG "ARG" 2 1, mkTok TOKEN_STRING "FOO=bar" 2 5, nlTok 2]

/-- The tokenized instruction `FROM --platform=linux/amd64 ubuntu`,
whose first argument token is a flag. -/
def fromPlatformLine : InstructionTokens :=
  { instruction := mkTok TOKEN_INSTRUCTION_FROM "FROM" 1 1,
    arguments := [mkTok TOKEN_STRING "--platform=linux/amd64" 1 6,
                  mkTok TOKEN_STRING "ubuntu" 1 29],
    comments := [], raw := [], jsonForm := false }

/-- A two-stage tokenized instruction list:
`FROM ubuntu AS build` / `RUN make` / `FROM alpine` / `CMD app`. -/
def twoStageFixture : List InstructionTokens :=
  [{ instruction := mkTok TOKEN_INSTRUCTION_FROM "FROM" 1 1,
     arguments := [mkTok TOKEN_STRING "ubuntu" 1 6, mkTok TOKEN_AS "AS" 1 13,
                   mkTok TOKEN_STRING "build" 1 16],
     comments := [], raw := [], jsonForm := false },
   { instruction := mkTok TOKEN_INSTRUCTION_RUN "RUN" 2 1,
     arguments := [mkTok TOKEN_STRING "make" 2 5],
     comments := [], raw := [], jsonForm := false },
   { instruction := mkTok TOKEN_INSTRUCTION_FROM "FROM" 4 1,
     arguments := [mkTok TOKEN_STRING "alpine" 4 6],
     comments := [], raw := [], jsonForm := false },
   { instruction := mkTok TOKEN_INSTRUCTION_CMD "CMD" 5 1,
     arguments := [mkTok TOKEN_STRING "app" 5 5],
     comments := [], raw := [], jsonForm := false }]

/-- A three-stage tokenized instruction list used for the index
invariant: `FROM a` / `FROM b` / `RUN x` / `FROM c`. -/
def threeStageFixture : List InstructionTokens :=
  [{ instruction := mkTok TOKEN_INSTRUCTION_FROM "FROM" 1 1,
     arguments := [mkTok TOKEN_STRING "a" 1 6],
     comments := [], raw := [], jsonForm := false },
   { instruction := mkTok TOKEN_INSTRUCTION_FROM "FROM" 2 1,
     arguments := [mkTok TOKEN_STRING "b" 2 6],
     comments := [], raw := [], jsonForm := false },
   { instruction := mkTok TOKEN_INSTRUCTION_RUN "RUN" 3 1,
     arguments := [mkTok TOKEN_STRING "x" 3 5],
     comments := [], raw := [], jsonForm := false },
   { instruction := mkTok TOKEN_INSTRUCTION_FROM "FROM" 4 1,
     arguments := [mkTok TOKEN_STRING "c" 4 6],
     comments := [], raw := [], jsonForm := false }]

/-- The reader contents following the `<<EOF` opener of
`RUN <<EOF\necho one\necho two\nEOF\n`. -/
def heredocReader : List Char := "\necho one\necho two\nEOF\n".data

/-- The same reader after its leading newline. -/
def heredocReaderTail : List Char := "echo one\necho two\nEOF\n".data

/-! ## Claim theorems -/

/-- C1: `CMD ["a","b c","d"]` parses in JSON form to
`Args = ["a","b c","d"]`; `CMD echo hi` parses in shell form to
`Args = ["echo hi"]`; `CMD [invalid json` fails with a `CodeSyntaxError`,
which is a different code from `CodeInstructionError`. -/
theorem C1_cmd_parsing :
    ((ParseInstruction cmdJsonLine).toOption.map (fun i => (i.args, i.jsonForm)) =
      some (["a", "b c", "d"], true))
    ∧ ((ParseInstruction cmdShellLine).toOption.map (fun i => (i.args, i.jsonForm)) =
      some (["echo hi"], false))
    ∧ parseErrorCodeOf (ParseInstruction cmdBadJsonLine) = some .codeSyntaxError
    ∧ ErrorCode.codeSyntaxError ≠ ErrorCode.codeInstructionError :=
  ⟨rfl, rfl, rfl, by decide⟩

/-- Non-termination of the heredoc-content scan on a reader: the loop
completes under no amount of fuel. -/
def scanHeredocDiverges (word : String) (reader : List Char) : Prop :=
  ∀ fuel : Nat, scanHeredocContentFuel word fuel reader "" = HeredocScan.diverged

/-- C2: on the heredoc `RUN <<EOF\necho one\necho two\nEOF`, the
scanner's heredoc-content loop never terminates, for any amount of fuel:
the first newline makes it call `peekLine`, which unreads every rune it
reads and therefore loops forever on the nonempty line `echo one`. The
claimed `Heredoc.Content` is never produced. -/
theorem C2_heredoc_scan_diverges : scanHeredocDiverges "EOF" heredocReader := by
  intro fuel
  cases fuel with
  | zero => rfl
  | succ n =>
    have hr : heredocReader = '\n' :: heredocReaderTail := rfl
    have hp : peekLineFuel n heredocReaderTail "" = none := by
      have ht : heredocReaderTail = 'e' :: "cho one\necho two\nEOF\n".data := rfl
      rw [ht]
      exact peekLineFuel_none 'e' (by decide) n _ ""
    rw [hr]
    simp [scanHeredocContentFuel, hp]

/-- C3: on an input whose first logical line is malformed and whose two
following lines are well-formed instructions, `ProcessAllInstructions`
returns *no* instruction groups and *three* errors: the resynchronization
loop consumes the next good line (its newline was already eaten by
`TokenizeLine`), and each following line then produces a spurious
"Line must start with an instruction" error on its own newline token.
The claimed behavior (two instruction groups, one recorded error) does
not hold. -/
theorem C3_resync_consumes_good_lines :
    (processAllInstructionsRun badThenGoodStream).1 = []
    ∧ (processAllInstructionsRun badThenGoodStream).2.map (fun e => e.message) =
        ["Line must start with an instruction", "Line must start with an instruction",
         "Line must start with an instruction"] :=
  ⟨rfl, rfl⟩

/-- C4: `COPY --from=builder /src /dst` succeeds and records `builder` in
`Dependencies`; the same argument tokens under `ADD` fail with a
`CodeInstructionError` whose message cites the disallowed `--from`
flag. -/
theorem C4_copy_add_from_flag :
    ((ParseInstruction copyFromLine).toOption.map (fun i => i.dependencies) =
      some ["builder"])
    ∧ parseErrorCodeOf (ParseInstruction addFromLine) = some .codeInstructionError
    ∧ parseErrorMessageOf (ParseInstruction addFromLine) =
        some "ADD does not support the --from flag" :=
  ⟨rfl, rfl, rfl⟩

/-- C5: on the well-formed input `FROM ubuntu` / `ARG FOO=bar`, the lexer
does produce the two instruction groups without error, yet
`DetectVariables` returns the empty list: it re-invokes
`ProcessAllInstructions` on the lexer that `DetectStages` has already
exhausted, so it iterates over zero instructions. The claimed
`VariableInfo` entry for `FOO` (stage 0) is never produced. -/
theorem C5_detect_variables_returns_nothing :
    ((processAllInstructionsRun fromArgStream).1.map
        (fun it => it.GetInstructionValue) = ["FROM", "ARG"])
    ∧ (processAllInstructionsRun fromArgStream).2 = []
    ∧ detectVariables (newLexer fromArgStream) = [] :=
  ⟨rfl, rfl, rfl⟩

/-- C6 (counterexample): for `FROM --platform=linux/amd64 ubuntu`,
`DetectStages` records the flag token itself as `BaseImage`, not the
first non-flag argument (`ubuntu`) that the claim requires. -/
theorem C6_base_image_counterexample :
    (detectStagesFromInstructions [fromPlatformLine]).map (fun s => s.baseImage) =
      ["--platform=linux/amd64"]
    ∧ specFirstNonFlagArg fromPlatformLine.arguments = some "ubuntu"
    ∧ ("--platform=linux/amd64" : String) ≠ "ubuntu" :=
  ⟨rfl, rfl, by decide⟩

/-- C6 (amended): on instruction lists whose tokens carry positive line
numbers (as the scanner guarantees), `DetectStages`' loop equals the
spec construction `specStages` with the base-image clause amended to
"the first argument token's value": stage k starts at the k-th FROM's
line, is closed at the next FROM's line minus one (the last stage at the
last instruction's line), takes its name from the token after `AS`, and
an input with zero FROMs yields zero stages. -/
theorem C6_detect_stages_spec (insts : List InstructionTokens)
    (hline : ∀ it ∈ insts, 1 ≤ it.instruction.line) :
    detectStagesFromInstructions insts =
      specStages (lastLineOf insts) 0 (insts.filter isFromIT) :=
  detectStagesFromInstructions_eq_spec insts hline

/-- C6 witness: the amended equality evaluated on a concrete two-stage
input. -/
theorem C6_detect_stages_spec_witness :
    (twoStageFixture.all (fun it => decide (1 ≤ it.instruction.line)) = true)
    ∧ detectStagesFromInstructions twoStageFixture =
        specStages (lastLineOf twoStageFixture) 0 (twoStageFixture.filter isFromIT) :=
  ⟨by decide, C6_detect_stages_spec twoStageFixture (by decide)⟩

/-- C7: `EXPOSE 8080/tcp 9090/udp 70000` parses successfully with all
three port tokens kept; a port whose `/`-suffix is neither `tcp` nor
`udp` is rejected with an invalid-protocol error; a numeric part that
`Atoi` rejects produces an "Invalid port number" error; and `70000` is
accepted because only integer-ness, not the 1–65535 range, is checked. -/
theorem C7_expose_ports :
    ((ParseInstruction exposeLine).toOption.map (fun i => i.args) =
      some ["8080/tcp", "9090/udp", "70000"])
    ∧ (∀ (pos : Position) (v port protocol : String),
        goSplit v '/' = [port, protocol] →
        goContainsChar v '/' = true →
        protocol ≠ "tcp" → protocol ≠ "udp" →
        checkExposeToken v pos = some
          { code := .codeInstructionError,
            message := "Invalid protocol: " ++ protocol ++ ". Must be tcp or udp",
            position := pos })
    ∧ (∀ (pos : Position) (v : String),
        goContainsChar v '/' = false →
        goAtoi v = none →
        checkExposeToken v pos = some
          { code := .codeInstructionError,
            message := "Invalid port number: " ++ v,
            position := pos })
    ∧ goAtoi "70000" = some 70000 := by
  refine ⟨rfl, ?_, ?_, rfl⟩
  · intro pos v port protocol hsplit hcont h1 h2
    simp [checkExposeToken, hcont, hsplit, h1, h2]
  · intro pos v hcont hatoi
    simp [checkExposeToken, hcont, hatoi]

/-- C7 witness: the protocol and port-number rejections evaluated at
`8080/http` and `80a80`. -/
theorem C7_expose_ports_witness :
    checkExposeToken "8080/http" { line := 1, column := 8 } = some
      { code := .codeInstructionError,
        message := "Invalid protocol: http. Must be tcp or udp",
        position := { line := 1, column := 8 } }
    ∧ checkExposeToken "80a80" { line := 1, column := 8 } = some
      { code := .codeInstructionError,
        message := "Invalid port number: 80a80",
        position := { line := 1, column := 8 } } :=
  ⟨C7_expose_ports.2.1 { line := 1, column := 8 } "8080/http" "8080" "http"
      (by decide) (by decide) (by decide) (by decide),
   C7_expose_ports.2.2.1 { line := 1, column := 8 } "80a80" (by decide) (by decide)⟩

/-- C8: on instruction lists whose tokens carry positive line numbers,
the `Index` fields of the stages returned by the `DetectStages` loop are
exactly `0, 1, 2, ...` — strictly increasing from 0, one stage per FROM
instruction, in source order. -/
theorem C8_stage_indices (insts : List InstructionTokens)
    (hline : ∀ it ∈ insts, 1 ≤ it.instruction.line) :
    (detectStagesFromInstructions insts).map (fun s => s.index) =
      intRangeFrom 0 (insts.filter isFromIT).length := by
  rw [detectStagesFromInstructions_eq_spec insts hline, specStages_map_index]

/-- C8 witness: the index sequence evaluated on a concrete three-FROM
input. -/
theorem C8_stage_indices_witness :
    (threeStageFixture.all (fun it => decide (1 ≤ it.instruction.line)) = true)
    ∧ (detectStagesFromInstructions threeStageFixture).map (fun s => s.index) =
        intRangeFrom 0 (threeStageFixture.filter isFromIT).length :=
  ⟨by decide, C8_stage_indices threeStageFixture (by decide)⟩

/-- C9: `ONBUILD ONBUILD RUN x` fails with the nesting error;
`ONBUILD FROM scratch` fails with the disallowed-trigger error;
`ONBUILD RUN echo hi` succeeds with `Args = ["RUN echo hi"]`. -/
theorem C9_onbuild_triggers :
    parseErrorMessageOf (ParseInstruction onbuildNestedLine) =
      some "ONBUILD cannot be nested (ONBUILD ONBUILD ...)"
    ∧ parseErrorCodeOf (ParseInstruction onbuildNestedLine) = some .codeInstructionError
    ∧ parseErrorMessageOf (ParseInstruction onbuildFromLine) =
        some "ONBUILD cannot trigger FROM instruction"
    ∧ parseErrorCodeOf (ParseInstruction onbuildFromLine) = some .codeInstructionError
    ∧ ((ParseInstruction onbuildRunLine).toOption.map (fun i => i.args) =
        some ["RUN echo hi"]) :=
  ⟨rfl, rfl, rfl, rfl, rfl⟩

/-- C10 (counterexample): both `labelOrderA` and `labelOrderB` are
iteration orders of the pair map of `LABEL a=1 b=2`, and
`parseLabelInstruction` produces different `Instruction` values (the
`Args` lists differ in order) depending on which one Go's randomized map
range happens to take — so `ParseInstruction` is not deterministic as
claimed. -/
theorem C10_map_order_counterexample :
    labelOrderA.Perm (parseKeyValuePairs labelPairsLine.GetArgumentsAsString)
    ∧ labelOrderB.Perm (parseKeyValuePairs labelPairsLine.GetArgumentsAsString)
    ∧ (parseLabelInstructionOrd labelPairsLine (baseInstructionOf labelPairsLine)
        labelOrderA).toOption.map (fun i => i.args) = some ["a=1", "b=2"]
    ∧ (parseLabelInstructionOrd labelPairsLine (baseInstructionOf labelPairsLine)
        labelOrderB).toOption.map (fun i => i.args) = some ["b=2", "a=1"]
    ∧ (["a=1", "b=2"] : List String) ≠ ["b=2", "a=1"] :=
  ⟨by decide, by decide, rfl, rfl, by decide⟩

/-- C10 (amended): LABEL and ENV parsing is deterministic *up to the
order of `Args`*: any two iteration orders of the key-value map yield
either the same error or instructions equal in every field except that
their `Args` lists are permutations of each other (and hence equal as
multisets). -/
theorem C10_label_env_order_determinism (t : InstructionTokens)
    (o₁ o₂ : List (String × String))
    (h₁ : o₁.Perm (parseKeyValuePairs t.GetArgumentsAsString))
    (h₂ : o₂.Perm (parseKeyValuePairs t.GetArgumentsAsString)) :
    resultsAgreeUpToArgsPerm
      (parseLabelInstructionOrd t (baseInstructionOf t) o₁)
      (parseLabelInstructionOrd t (baseInstructionOf t) o₂)
    ∧ resultsAgreeUpToArgsPerm
      (parseEnvInstructionOrd t (baseInstructionOf t) o₁)
      (parseEnvInstructionOrd t (baseInstructionOf t) o₂) := by
  have hperm : (o₁.map (fun kv => kv.1 ++ "=" ++ kv.2)).Perm
      (o₂.map (fun kv => kv.1 ++ "=" ++ kv.2)) :=
    (h₁.trans h₂.symm).map _
  constructor
  · unfold parseLabelInstructionOrd
    by_cases h : t.GetArgumentsAsString == ""
    · simp [h, resultsAgreeUpToArgsPerm]
    · simp only [h, Bool.false_eq_true, if_false, resultsAgreeUpToArgsPerm]
      exact ⟨trivial, List.Perm.append_left _ hperm⟩
  · unfold parseEnvInstructionOrd
    by_cases h : t.GetArgumentsAsString == ""
    · simp [h, resultsAgreeUpToArgsPerm]
    · simp only [h, Bool.false_eq_true, if_false, resultsAgreeUpToArgsPerm]
      exact ⟨trivial, List.Perm.append_left _ hperm⟩

/-- C10 witness: the amended agreement evaluated at `LABEL a=1 b=2` with
its two possible map iteration orders. -/
theorem C10_label_env_order_determinism_witness :
    resultsAgreeUpToArgsPerm
      (parseLabelInstructionOrd labelPairsLine (baseInstructionOf labelPairsLine) labelOrderA)
      (parseLabelInstructionOrd labelPairsLine (baseInstructionOf labelPairsLine) labelOrderB)
    ∧ resultsAgreeUpToArgsPerm
      (parseEnvInstructionOrd labelPairsLine (baseInstructionOf labelPairsLine) labelOrderA)
      (parseEnvInstructionOrd labelPairsLine (baseInstructionOf labelPairsLine) labelOrderB) :=
  C10_label_env_order_determinism labelPairsLine labelOrderA labelOrderB
    (by decide) (by decide)
